import Mathlib

/-!
Verification of the FATE hetero-SSHE logistic regression core
(`federatedml/linear_model/logistic_regression/hetero_sshe_logistic_regression/hetero_lr_base.py`
and `federatedml/param/hetero_sshe_lr_param.py`) against its
natural-language specification.

The Python sources are shallowly embedded: pure fragments become Lean
functions; role-conditional fragments take the party role as an argument;
cross-party network operations are recorded as explicit event traces; code
that raises becomes `Except`-valued code.  Machine floats never reach the
properties below, so numeric fields are embedded as `Rat`/`Int`.
-/

set_option linter.unusedVariables false

/-- Party role (`consts.GUEST` / `consts.HOST`).  The training session fixes
it for its lifetime. -/
inductive Role where
  | guest
  | host
deriving DecidableEq, Repr

/-- Where `FixedPointTensor.from_source` gets its data: either the locally
supplied plaintext weight vector `w` (`source[0]` in `share_init_model`) or
the peer party object (`source[1] = self.other_party`). -/
inductive ShareSource where
  | localWeights (w : List Int)
  | peerParty
deriving DecidableEq, Repr

/-- A secret-share tensor as produced by
`fixedpoint_numpy.FixedPointTensor.from_source`: we record the tensor name
(the transfer tag) and which source built it.  The numeric payload is not
needed by the claims about `share_init_model`. -/
structure FPTensor where
  name : String
  source : ShareSource
deriving DecidableEq, Repr

/-- Embedding of `fixedpoint_numpy.FixedPointTensor.from_source(name, src, ...)`
(the encoder and field arguments do not influence the properties below). -/
def from_source (name : String) (src : ShareSource) : FPTensor :=
  ⟨name, src⟩

/-- Embedding of `HeteroLRBase.share_init_model(w, fix_point_encoder, n_iter=-1)`
(hetero_lr_base.py lines 86-107).

Python:
```
source = [w, self.other_party]
if self.local_party.role == consts.GUEST:
    wb, wa = (from_source(f"wb_\x7bn_iter\x7d", source[0], ...),
              from_source(f"wa_\x7bn_iter\x7d", source[1], ...))
    return wb, wa
else:
    wa, wb = (from_source(f"wa_\x7bn_iter\x7d", source[0], ...),
              from_source(f"wb_\x7bn_iter\x7d", source[1], ...))
    return wa, wb
```
-/
def share_init_model (role : Role) (w : List Int) (n_iter : Int) :
    FPTensor × FPTensor :=
  match role with
  | Role.guest =>
      (from_source ("wb_" ++ toString n_iter) (ShareSource.localWeights w),
       from_source ("wa_" ++ toString n_iter) ShareSource.peerParty)
  | Role.host =>
      (from_source ("wa_" ++ toString n_iter) (ShareSource.localWeights w),
       from_source ("wb_" ++ toString n_iter) ShareSource.peerParty)

/-- The keyword arguments `(wa, wb)` that `fit_binary` passes to
`compute_gradient` in the per-batch body (hetero_lr_base.py lines 178-188):

```
if self.role == consts.GUEST:
    w_remote, w_self = self.compute_gradient(wa=w_remote, wb=w_self, ...)
else:
    w_self, w_remote = self.compute_gradient(wa=w_self, wb=w_remote, ...)
```

The embedding returns the pair (value passed as `wa`, value passed as `wb`). -/
def compute_gradient_args (role : Role) (w_self w_remote : FPTensor) :
    FPTensor × FPTensor :=
  match role with
  | Role.guest => (w_remote, w_self)
  | Role.host => (w_self, w_remote)

/-- Runtime errors raised by `hetero_lr_base.py`. -/
inductive RErr where
  | valueError (msg : String)
  | notImplementedError (msg : String)
deriving DecidableEq, Repr

/-- Network operations performed by `review_models`: the two reconstruction
primitives of the secret-shared tensor engine.  `broadcastShare` transmits
the local share of the named tensor to the peer; `reconstructUni` consumes
the matching peer transmission and returns plaintext on the calling side. -/
inductive REvent where
  | reconstructUni (tensorName : String)
  | broadcastShare (tensorName : String)
deriving DecidableEq, Repr

/-- The state of the model object consulted by `review_models`. -/
structure ReviewCtx where
  role : Role
  review_strategy : String
  n_iter : Nat
deriving Repr

/-- A weight-share tensor as seen by `review_models`: we keep this party's
share values; `shape[0]` is the length of that list. -/
structure WTensor where
  shares : List Int
deriving DecidableEq, Repr

/-- What `review_models` produces on success: the plaintext `new_w` and the
`hosted_model_weights` list (written only on the GUEST branch of the
`all_review_in_guest` strategy). -/
structure ReviewOut where
  new_w : List Int
  hosted : List (List Int)
deriving DecidableEq, Repr

/-- Embedding of `HeteroLRBase.review_models(w_self, w_remote)`
(hetero_lr_base.py lines 213-240).  `recon` is the environment oracle giving
the plaintext returned by `reconstruct_unilateral` for a tensor name (it
depends on the peer share, which lives in the other process).  The second
component is the ordered trace of network operations the call performs; a
raise is an `.error` result, listed together with the operations already
performed before the raise.

Python (strategy `all_review_in_guest`, HOST branch):
```
if w_remote.shape[0] > 2:
    raise ValueError("Too many features in Guest. ...")
w_remote.broadcast_reconstruct_share(tensor_name=f"wb_\x7bself.n_iter_\x7d")
w_self.broadcast_reconstruct_share(tensor_name=f"wa_\x7bself.n_iter_\x7d")
new_w = np.zeros(w_self.shape)
```
-/
def review_models (ctx : ReviewCtx) (w_self w_remote : WTensor)
    (recon : String → List Int) :
    Except RErr ReviewOut × List REvent :=
  let wbName := "wb_" ++ toString ctx.n_iter
  let waName := "wa_" ++ toString ctx.n_iter
  if ctx.review_strategy = "respectively" then
    match ctx.role with
    | Role.guest =>
        (Except.ok ⟨recon wbName, []⟩,
         [REvent.reconstructUni wbName, REvent.broadcastShare waName])
    | Role.host =>
        (Except.ok ⟨recon waName, []⟩,
         [REvent.broadcastShare wbName, REvent.reconstructUni waName])
  else if ctx.review_strategy = "all_review_in_guest" then
    match ctx.role with
    | Role.guest =>
        (Except.ok ⟨recon wbName, [recon waName]⟩,
         [REvent.reconstructUni wbName, REvent.reconstructUni waName])
    | Role.host =>
        if w_remote.shares.length > 2 then
          (Except.error (RErr.valueError
             ("Too many features in Guest. Review strategy: " ++
              "all_review_in_guest should not be used.")), [])
        else
          (Except.ok ⟨List.replicate w_self.shares.length 0, []⟩,
           [REvent.broadcastShare wbName, REvent.broadcastShare waName])
  else
    (Except.error (RErr.notImplementedError
       ("review strategy: " ++ ctx.review_strategy ++
        " has not been implemented.")), [])

/-- The observable steps of the `fit_binary` training loop
(hetero_lr_base.py lines 170-207), tagged with the epoch counter
`self.n_iter_` and, for per-batch steps, the batch index. -/
inductive LoopEvent where
  | predict (iter batch : Nat)
  | gradient (iter batch : Nat)
  | review (iter batch : Nat)
  | convergeCheck (iter : Nat)
  | validate (iter : Nat)
deriving DecidableEq, Repr

/-- How the `while` loop of `fit_binary` was left. -/
inductive ExitReason where
  | converged
  | maxIterReached
  | earlyStop
deriving DecidableEq, Repr

/-- The environment of one `fit_binary` run: the number of encoded batches,
the oracles for `self.check_converge(...)` and
`self.validation_strategy.need_stop()` at each epoch, and whether a
validation strategy object is present (the `if self.validation_strategy:`
truthiness test). -/
structure FitEnv where
  numBatches : Nat
  convergedAt : Nat → Bool
  needStopAt : Nat → Bool
  hasValidation : Bool

/-- Result of the `fit_binary` training loop: final `self.n_iter_`, final
`self.is_converged`, how the loop exited, and the ordered event trace. -/
structure FitOutcome where
  n_iter : Nat
  is_converged : Bool
  exit : ExitReason
  trace : List LoopEvent
deriving DecidableEq, Repr

/-- The events of the inner `for batch_idx, batch_data in
enumerate(encoded_batch_data):` loop at epoch `iter`
(hetero_lr_base.py lines 172-192): per batch, `cal_prediction`, then
`compute_gradient`, then `review_models`. -/
def batch_phase (iter : Nat) (numBatches : Nat) : List LoopEvent :=
  (List.range numBatches).flatMap
    (fun b => [LoopEvent.predict iter b, LoopEvent.gradient iter b,
               LoopEvent.review iter b])

/-- The full event list of one epoch body at epoch `n`: the batch loop,
then the convergence check, then (when a validation strategy object is
present) the validation call — whatever way the body is then left. -/
def epoch_events (env : FitEnv) (n : Nat) : List LoopEvent :=
  batch_phase n env.numBatches ++ [LoopEvent.convergeCheck n] ++
    (if env.hasValidation then [LoopEvent.validate n] else [])

/-- Embedding of the `while self.n_iter_ < self.max_iter:` loop of
`fit_binary` (hetero_lr_base.py lines 170-207), entered with epoch counter
`n` and convergence flag `conv`.  The loop guard `self.n_iter_ < self.max_iter`
is represented by the fuel argument: the loop is always entered with
`fuel = maxIter - n` and `self.n_iter_` increases by one per pass, so
`fuel > 0` is exactly the guard and `fuel = 0` is the guard failing with
`self.n_iter_ = maxIter`.

Python loop body, after the batch loop:
```
self.is_converged = self.check_converge(...)
last_models = [new_w, copy.deepcopy(self.hosted_model_weights)]
if self.validation_strategy:
    self.validation_strategy.validate(self, self.n_iter_)
    if self.validation_strategy.need_stop():
        break
if self.is_converged:
    break
self.n_iter_ += 1
```
-/
def fit_loop (env : FitEnv) : Nat → Nat → Bool → FitOutcome
  | 0, n, conv => ⟨n, conv, ExitReason.maxIterReached, []⟩
  | fuel + 1, n, _conv =>
    let evs := epoch_events env n
    let conv2 := env.convergedAt n
    if env.hasValidation && env.needStopAt n then
      ⟨n, conv2, ExitReason.earlyStop, evs⟩
    else if conv2 then
      ⟨n, conv2, ExitReason.converged, evs⟩
    else
      let r := fit_loop env fuel (n + 1) conv2
      ⟨r.n_iter, r.is_converged, r.exit, evs ++ r.trace⟩

/-- `fit_binary` starts the loop with `self.n_iter_ = 0` and
`self.is_converged = False` (inherited initial state), so the initial fuel
is `maxIter`. -/
def fit_binary_loop (env : FitEnv) (maxIter : Nat) : FitOutcome :=
  fit_loop env maxIter 0 false

/-- Number of executed epoch bodies in a trace: each epoch body performs
exactly one convergence check. -/
def epochsRun (tr : List LoopEvent) : Nat :=
  tr.countP (fun e => match e with
    | LoopEvent.convergeCheck _ => true
    | _ => false)

/-- Number of `review_models` executions recorded in a trace. -/
def reviewsRun (tr : List LoopEvent) : Nat :=
  tr.countP (fun e => match e with
    | LoopEvent.review _ _ => true
    | _ => false)

deriving instance DecidableEq for Except

/-- Python `str.lower()` restricted to the ASCII names used here. -/
def pyLower (s : String) : String := String.mk (s.data.map Char.toLower)

/-- Python `str.upper()` restricted to the ASCII names used here. -/
def pyUpper (s : String) : String := String.mk (s.data.map Char.toUpper)

/-- Modelled from the spec: `consts.MIN_BATCH_SIZE`, the minimum accepted
mini-batch size.  The `federatedml.util.consts` module is not among the
sources; the spec only requires the bound to be positive (it demands
`batch_size = 0` be rejected), so a representative positive value is used. -/
def MIN_BATCH_SIZE : Int := 10

/-- The hyperparameter object of `hetero_sshe_lr_param.py`
(`LogisticRegressionParam.__init__`, lines 110-145).  Fields whose `check`
guard is only a Python `isinstance`/type-name test are embedded at the type
the test demands, which makes those guards vacuous; numeric fields carry
`Rat`/`Int` instead of machine floats.  `encrypt_method` stands for
`encrypt_param.method`; the spec-external sub-parameter objects
(`init_param`, `predict_param`, `stepwise_param`) and their own `check`
calls are out of the spec scope and modelled as succeeding. -/
structure LogisticRegressionParam where
  penalty : Option String
  tol : Rat
  alpha : Rat
  optimizer : String
  batch_size : Int
  learning_rate : Rat
  max_iter : Int
  early_stop : String
  encrypt_method : Option String
  decay : Rat
  decay_sqrt : Bool
  validation_freqs : Option Int
  early_stopping_rounds : Option Int
  metrics : List String
  use_first_metric_only : Bool
  floating_point_precision : Option Int
  review_strategy : String
deriving DecidableEq, Repr

/-- `check` guard for `penalty` (hetero_sshe_lr_param.py lines 150-159):
`None` passes; otherwise upper-case and demand membership in
`[consts.L1_PENALTY, consts.L2_PENALTY, "NONE"]`. -/
def penalty_check : Option String → Except String Unit
  | none => Except.ok ()
  | some p =>
      let pu := pyUpper p
      if ¬(pu = "L1" ∨ pu = "L2" ∨ pu = "NONE") then
        Except.error "logistic_param penalty not supported"
      else Except.ok ()

/-- `check` guard for `optimizer` (lines 169-177): lower-case and demand
membership in the six supported optimizers. -/
def optimizer_check (o : String) : Except String Unit :=
  let ol := pyLower o
  if ¬(ol = "sgd" ∨ ol = "rmsprop" ∨ ol = "adam" ∨ ol = "adagrad" ∨
       ol = "nesterov_momentum_sgd" ∨ ol = "sqn") then
    Except.error "logistic_param optimizer not supported"
  else Except.ok ()

/-- `check` guard for `batch_size` (lines 179-183): `-1` passes, anything
below `consts.MIN_BATCH_SIZE` is refused (the `type(...) not int` half of
the Python condition is vacuous at type `Int`). -/
def batch_size_check (b : Int) : Except String Unit :=
  if b ≠ -1 then
    if b < MIN_BATCH_SIZE then
      Except.error "logistic_param batch_size not supported"
    else Except.ok ()
  else Except.ok ()

/-- `check` guard for `max_iter` (lines 192-197). -/
def max_iter_check (m : Int) : Except String Unit :=
  if m ≤ 0 then
    Except.error "logistic_param max_iter must be greater or equal to 1"
  else Except.ok ()

/-- `check` guard for `early_stop` (lines 199-208). -/
def early_stop_check (e : String) : Except String Unit :=
  let el := pyLower e
  if ¬(el = "diff" ∨ el = "abs" ∨ el = "weight_diff") then
    Except.error "logistic_param early_stop not supported"
  else Except.ok ()

/-- `check` guard for `encrypt_param.method` (lines 212-214); the constant
`consts.PAILLIER` is the string "Paillier". -/
def encrypt_method_check : Option String → Except String Unit
  | none => Except.ok ()
  | some m =>
      if m = "Paillier" then Except.ok ()
      else Except.error "logistic_param encrypted method support Paillier or None only"

/-- `check` guard for `validation_freqs` (lines 227-233), integer case. -/
def validation_freqs_check : Option Int → Except String Unit
  | none => Except.ok ()
  | some v =>
      if v ≤ 0 then
        Except.error "validate_freqs should greater than 0"
      else Except.ok ()

/-- `check` guard for `early_stopping_rounds` (lines 235-241): `None`
passes; an integer must be at least 1 and requires `validation_freqs` to be
set. -/
def early_stopping_rounds_check (vf : Option Int) :
    Option Int → Except String Unit
  | none => Except.ok ()
  | some r =>
      if r < 1 then
        Except.error "early stopping rounds should be larger than 0"
      else
        match vf with
        | none => Except.error "validation freqs must be set when early stopping is enabled"
        | some _ => Except.ok ()

/-- `check` guard for `floating_point_precision` (lines 249-252). -/
def floating_point_precision_check : Option Int → Except String Unit
  | none => Except.ok ()
  | some p =>
      if p < 0 ∨ p > 63 then
        Except.error "floating point precision should be null or a integer between 0 and 63"
      else Except.ok ()

/-- `check` guard for `review_strategy` (lines 254-257): lower-case in
place, demand membership in the two strategies (`check_valid_value`), then
refuse `all_review_in_guest` unless the process-wide flag
`consts.ALLOW_REVIEW_GUEST_ONLY` is set.  The flag lives in the external
`consts` module, so it is an explicit argument here. -/
def review_strategy_check (s : String) (allowReviewGuestOnly : Bool) :
    Except String Unit :=
  let sl := pyLower s
  if ¬(sl = "respectively" ∨ sl = "all_review_in_guest") then
    Except.error "logistic_param review_strategy not supported"
  else if ¬allowReviewGuestOnly ∧ sl = "all_review_in_guest" then
    Except.error "PermissionError: review strategy all_review_in_guest has not been authorized."
  else Except.ok ()

/-- Sequential raising: the first failing guard aborts `check`, later
guards never run. -/
def firstErr : List (Except String Unit) → Except String Unit
  | [] => Except.ok ()
  | Except.ok () :: rest => firstErr rest
  | Except.error e :: _ => Except.error e

/-- Embedding of `LogisticRegressionParam.check(self)`
(hetero_sshe_lr_param.py lines 147-258): the guards in source order; on
success Python returns `True`.  Guards that are pure `isinstance` tests on
fields embedded at their demanded type (`tol`, `alpha`, `learning_rate`,
`decay`, `decay_sqrt`, `metrics`, `use_first_metric_only`) hold by typing
and are omitted, as are the `check()` calls of the external sub-parameter
objects. -/
def LogisticRegressionParam.check (p : LogisticRegressionParam)
    (allowReviewGuestOnly : Bool) : Except String Bool :=
  match firstErr
      [penalty_check p.penalty,
       optimizer_check p.optimizer,
       batch_size_check p.batch_size,
       max_iter_check p.max_iter,
       early_stop_check p.early_stop,
       encrypt_method_check p.encrypt_method,
       validation_freqs_check p.validation_freqs,
       early_stopping_rounds_check p.validation_freqs p.early_stopping_rounds,
       floating_point_precision_check p.floating_point_precision,
       review_strategy_check p.review_strategy allowReviewGuestOnly] with
  | Except.error e => Except.error e
  | Except.ok () => Except.ok true

/-- The constructor defaults of `LogisticRegressionParam.__init__`
(lines 110-121): `penalty="L2"`, `tol=1e-4`, `alpha=1.0`,
`optimizer="rmsprop"`, `batch_size=-1`, `learning_rate=0.01`,
`max_iter=100`, `early_stop="diff"`, Paillier encryption,
`decay=1`, `decay_sqrt=True`, `floating_point_precision=23`,
`review_strategy="respectively"`. -/
def defaultLRParam : LogisticRegressionParam where
  penalty := some "L2"
  tol := 1 / 10000
  alpha := 1
  optimizer := "rmsprop"
  batch_size := -1
  learning_rate := 1 / 100
  max_iter := 100
  early_stop := "diff"
  encrypt_method := some "Paillier"
  decay := 1
  decay_sqrt := true
  validation_freqs := none
  early_stopping_rounds := none
  metrics := []
  use_first_metric_only := false
  floating_point_precision := some 23
  review_strategy := "respectively"

/-- The default configuration with `batch_size` replaced, for exercising
the `batch_size` guard alone. -/
def cfg_batch (b : Int) : LogisticRegressionParam :=
  { defaultLRParam with batch_size := b }

/-- The default configuration asking for the `all_review_in_guest`
strategy. -/
def allReviewGuestParam : LogisticRegressionParam :=
  { defaultLRParam with review_strategy := "all_review_in_guest" }

/-- Embedding of the abstract `HeteroLRBase.cal_prediction(w_self, w_remote,
features, spdz, suffix)` (hetero_lr_base.py lines 109-110): the base class
supplies no secure-arithmetic implementation and raises
`NotImplementedError` unconditionally. -/
def HeteroLRBase.cal_prediction (w_self w_remote : FPTensor)
    (features : List Int) (spdz : Unit) (suffix : Nat × Nat) :
    Except RErr FPTensor :=
  Except.error (RErr.notImplementedError "Should not call here")

/-- Embedding of the abstract `HeteroLRBase.compute_gradient(wa, wb, error,
features, suffix)` (hetero_lr_base.py lines 112-113). -/
def HeteroLRBase.compute_gradient (wa wb : FPTensor) (error : List Int)
    (features : List Int) (suffix : Nat × Nat) :
    Except RErr (FPTensor × FPTensor) :=
  Except.error (RErr.notImplementedError "Should not call here")

/-- Embedding of the abstract `HeteroLRBase.transfer_pubkey()`
(hetero_lr_base.py lines 115-116). -/
def HeteroLRBase.transfer_pubkey : Except RErr Nat :=
  Except.error (RErr.notImplementedError "Should not call here")

/-- The fixed-point encoder object (`self.fixpoint_encoder`); only its
field modulus `n` is consulted by `share_z`. -/
structure FixPointEncoder where
  n : Nat
deriving DecidableEq, Repr

/-- The `.value` payload of the fixed-point tensor passed to `share_z` as
keyword argument `z`. -/
structure FPNVal where
  value : List Int
deriving DecidableEq, Repr

/-- A Paillier ciphertext produced by `self.cipher.distribute_encrypt`:
we record the encrypting key and the plaintext it protects (the embedding
offers no decryption operation, so the payload is opaque to every
definition below except the encryptor). -/
structure Ciphertext where
  key : Nat
  payload : List Int
deriving DecidableEq, Repr

/-- Embedding of `self.cipher.distribute_encrypt(z.value)`. -/
def distribute_encrypt (key : Nat) (v : List Int) : Ciphertext :=
  ⟨key, v⟩

/-- Embedding of `fixedpoint_table.PaillierFixedPointTensor(z_table,
q_field=self.fixpoint_encoder.n, endec=self.fixpoint_encoder)`: a wrapper
holding the received ciphertext unchanged. -/
structure PaillierFixedPointTensor where
  value : Ciphertext
  q_field : Nat
  endec : FixPointEncoder
deriving DecidableEq, Repr

/-- The network operation of `share_z`:
`self.transfer_variable.encrypted_share_matrix.remote(encrypt_z,
role=consts.GUEST, suffix=(var_name,) + suffix)`. -/
inductive ZEvent where
  | remoteSend (dest : Role) (suffix : List String) (c : Ciphertext)
deriving DecidableEq, Repr

/-- Embedding of `HeteroLRBase.share_z(suffix, **kwargs)`
(hetero_lr_base.py lines 242-263).  The loop ranges over the single
variable name "z" (the square/cube names are commented out in the source),
and the GUEST branch returns `res[0], res[0], res[0]`.  `kwargs` maps the
keyword name to the tensor passed; `recv` is the environment oracle for
`transfer_variable.encrypted_share_matrix.get(role=dest_role, idx=0,
suffix=...)`. -/
def share_z (role : Role) (cipherKey : Nat) (enc : FixPointEncoder)
    (suffix : List String) (kwargs : String → FPNVal)
    (recv : Role → List String → Ciphertext) :
    Option (PaillierFixedPointTensor × PaillierFixedPointTensor ×
            PaillierFixedPointTensor) × List ZEvent :=
  if role = Role.host then
    let z := kwargs "z"
    (none,
     [ZEvent.remoteSend Role.guest ("z" :: suffix)
        (distribute_encrypt cipherKey z.value)])
  else
    let dest_role := if role = Role.host then Role.guest else Role.host
    let z_table := recv dest_role ("z" :: suffix)
    let t : PaillierFixedPointTensor := ⟨z_table, enc.n, enc⟩
    (some (t, t, t), [])

/-- Modelled from the spec: `LinearModelWeights` lives in the external
module `federatedml.linear_model.linear_model_weight`, which is not among
the sources.  Per the spec data model, ModelWeights is a logical
coefficient vector with an optional intercept; when `fit_intercept` is set
the intercept is stored as the last entry of `l`. -/
structure LinearModelWeights where
  l : List Int
  fit_intercept : Bool
deriving DecidableEq, Repr

/-- Modelled from the spec: the coefficient part of the weight vector
(everything but the trailing intercept when `fit_intercept` is set). -/
def LinearModelWeights.coef_ (m : LinearModelWeights) : List Int :=
  if m.fit_intercept then m.l.dropLast else m.l

/-- Modelled from the spec: the intercept (the trailing entry when
`fit_intercept` is set, otherwise 0). -/
def LinearModelWeights.intercept_ (m : LinearModelWeights) : Int :=
  if m.fit_intercept then m.l.getLastD 0 else 0

/-- The attributes of the model object consulted by
`get_single_model_param` and `load_single_model`. -/
structure ModelState where
  n_iter : Nat
  loss_history : List Rat
  is_converged : Bool
  model_weights : LinearModelWeights
  header : List String
deriving DecidableEq, Repr

/-- The persisted parameter record built by `get_single_model_param`
(hetero_lr_base.py lines 279-296); `weight` keeps the dict entries in
insertion order (`best_iteration` is omitted: it only reflects the external
validation strategy). -/
structure SingleModelParam where
  iters : Nat
  loss_history : List Rat
  is_converged : Bool
  weight : List (String × Int)
  intercept : Int
  header : List String
deriving DecidableEq, Repr

/-- The dict built by `for idx, header_name in enumerate(header):
weight_dict[header_name] = model_weights.coef_[idx]`: a lockstep walk of
the header and the coefficient vector (an index beyond the coefficient
vector raises IndexError), keeping insertion order. -/
def build_weight_dict : List String → List Int → Except String (List (String × Int))
  | [], _ => Except.ok []
  | name :: names, c :: cs =>
      match build_weight_dict names cs with
      | Except.ok rest => Except.ok ((name, c) :: rest)
      | Except.error e => Except.error e
  | _ :: _, [] => Except.error "IndexError"

/-- Python dict lookup over the insertion-ordered entry list: the LAST
insertion for a key wins. -/
def dget : List (String × Int) → String → Option Int
  | [], _ => none
  | (k, v) :: rest, key =>
      match dget rest key with
      | some w => some w
      | none => if key = k then some v else none

/-- Embedding of `HeteroLRBase.get_single_model_param()`
(hetero_lr_base.py lines 279-296) in its default-argument form
(`model_weights=None, header=None`, so both come from `self`). -/
def get_single_model_param (st : ModelState) : Except String SingleModelParam :=
  match build_weight_dict st.header st.model_weights.coef_ with
  | Except.error e => Except.error e
  | Except.ok wd =>
      Except.ok ⟨st.n_iter, st.loss_history, st.is_converged, wd,
                 st.model_weights.intercept_, st.header⟩

/-- The loop `for idx, header_name in enumerate(self.header):
tmp_vars[idx] = weight_dict.get(header_name)` of `load_single_model`: one
dict lookup per header name, in order (a missing name yields Python `None`,
whose assignment into the numpy float array raises TypeError). -/
def lookup_all (d : List (String × Int)) : List String → Except String (List Int)
  | [] => Except.ok []
  | name :: names =>
      match dget d name with
      | none => Except.error "TypeError"
      | some v =>
          match lookup_all d names with
          | Except.ok rest => Except.ok (v :: rest)
          | Except.error e => Except.error e

/-- Embedding of `HeteroLRBase.load_single_model(single_model_obj)`
(hetero_lr_base.py lines 322-335): rebuild the coefficient vector from the
persisted weight dict along `self.header`, append the persisted intercept
when `self.fit_intercept` is set, and restore `self.n_iter_` from `iters`.
Returns the restored `(model_weights, n_iter_)`. -/
def load_single_model (header : List String) (fit_intercept : Bool)
    (m : SingleModelParam) : Except String (LinearModelWeights × Nat) :=
  match lookup_all m.weight header with
  | Except.error e => Except.error e
  | Except.ok tmp_vars =>
      let tmp_vars2 := if fit_intercept then tmp_vars ++ [m.intercept] else tmp_vars
      Except.ok (⟨tmp_vars2, fit_intercept⟩, m.iters)

/-! ## Claim C1: the dimension bound in the all_review_in_guest HOST branch -/

/-- C1 counterexample.  The claim says: under `all_review_in_guest`, a HOST
share dimension above 2 makes `review_models` raise before any
`broadcast_reconstruct_share`.  At the concrete input where the HOST model
share `w_self` has dimension 4 (> 2) but the GUEST-side share `w_remote`
has dimension 1, the call raises nothing and transmits both shares: the
bound the code enforces is on `w_remote`, not on the HOST share. -/
theorem C1_counterexample :
    (review_models ⟨Role.host, "all_review_in_guest", 0⟩ ⟨[1, 2, 3, 4]⟩ ⟨[7]⟩
        (fun _ => [])) =
      (Except.ok ⟨[0, 0, 0, 0], []⟩,
       [REvent.broadcastShare "wb_0", REvent.broadcastShare "wa_0"]) ∧
    ([1, 2, 3, 4] : List Int).length > 2 := by
  exact ⟨rfl, by decide⟩

/-- C1 (amended): under review strategy `all_review_in_guest`, on the HOST
side, if the GUEST-side weight share `w_remote` has dimension above the
fixed bound of 2, `review_models` raises a fatal ValueError, and the raise
happens before any `broadcast_reconstruct_share` call: no share value
crosses the process boundary on the failing run (the emitted network trace
is empty). -/
theorem C1_amended (ctx : ReviewCtx) (w_self w_remote : WTensor)
    (recon : String → List Int)
    (hrole : ctx.role = Role.host)
    (hstrat : ctx.review_strategy = "all_review_in_guest")
    (hdim : 2 < w_remote.shares.length) :
    review_models ctx w_self w_remote recon =
      (Except.error (RErr.valueError
         ("Too many features in Guest. Review strategy: " ++
          "all_review_in_guest should not be used.")), []) := by
  obtain ⟨role, strat, n⟩ := ctx
  simp only at hrole hstrat
  subst hrole
  subst hstrat
  simp [review_models, hdim]

/-- Witness for `C1_amended` at a concrete failing input. -/
theorem C1_amended_witness :
    review_models ⟨Role.host, "all_review_in_guest", 1⟩ ⟨[5]⟩ ⟨[1, 2, 3]⟩
        (fun _ => []) =
      (Except.error (RErr.valueError
         ("Too many features in Guest. Review strategy: " ++
          "all_review_in_guest should not be used.")), []) :=
  C1_amended ⟨Role.host, "all_review_in_guest", 1⟩ ⟨[5]⟩ ⟨[1, 2, 3]⟩
    (fun _ => []) rfl rfl (by decide)

/-! ## Claim C2: the order of the share pair returned by share_init_model -/

/-- C2 counterexample.  The claim says HOST receives the pair
(peer share, own share).  At the concrete input, the FIRST component of the
HOST pair is the one built from the locally supplied `w` and the second is
the peer-sourced one — the same (own, peer) order as GUEST, so the
own-share position does not differ per role. -/
theorem C2_counterexample :
    (share_init_model Role.host [3, 1] (-1)).1.source =
        ShareSource.localWeights [3, 1] ∧
    (share_init_model Role.host [3, 1] (-1)).2.source = ShareSource.peerParty ∧
    ¬((share_init_model Role.host [3, 1] (-1)).2.source =
        ShareSource.localWeights [3, 1]) ∧
    (share_init_model Role.guest [3, 1] (-1)).1.source =
        ShareSource.localWeights [3, 1] := by
  decide

/-- C2 (amended): for every plaintext weight vector `w` and both roles,
`share_init_model` returns the pair in the SAME (own share, peer share)
order; what is role-swapped is the tensor naming: GUEST names its own
share `wb_<n>` and the peer share `wa_<n>`, HOST names its own share
`wa_<n>` and the peer share `wb_<n>`. -/
theorem C2_amended (role : Role) (w : List Int) (n_iter : Int) :
    (share_init_model role w n_iter).1.source = ShareSource.localWeights w ∧
    (share_init_model role w n_iter).2.source = ShareSource.peerParty ∧
    (share_init_model role w n_iter).1.name =
      (match role with
       | Role.guest => "wb_"
       | Role.host => "wa_") ++ toString n_iter ∧
    (share_init_model role w n_iter).2.name =
      (match role with
       | Role.guest => "wa_"
       | Role.host => "wb_") ++ toString n_iter := by
  cases role <;> simp [share_init_model, from_source]

/-! ## Claim C3: how often review_models runs per epoch -/

/-- One batch phase at epoch `i` over `k` batches contains exactly `k`
review events and no convergence-check event. -/
theorem batch_phase_counts (i k : Nat) :
    reviewsRun (batch_phase i k) = k ∧ epochsRun (batch_phase i k) = 0 := by
  induction k with
  | zero => simp [batch_phase, reviewsRun, epochsRun]
  | succ k ih =>
      unfold batch_phase at ih ⊢
      rw [List.range_succ, List.flatMap_append]
      unfold reviewsRun epochsRun at ih ⊢
      rw [List.countP_append, List.countP_append]
      simp only [List.flatMap_cons, List.flatMap_nil, List.append_nil,
        List.countP_cons, List.countP_nil]
      simp only [ih.1, ih.2]
      norm_num

/-- `reviewsRun` and `epochsRun` distribute over trace concatenation. -/
theorem runs_append (a b : List LoopEvent) :
    reviewsRun (a ++ b) = reviewsRun a + reviewsRun b ∧
    epochsRun (a ++ b) = epochsRun a + epochsRun b := by
  unfold reviewsRun epochsRun
  rw [List.countP_append, List.countP_append]
  exact ⟨rfl, rfl⟩

/-- The events of one epoch body (batch phase, convergence check, optional
validation) contain `numBatches` reviews and exactly one convergence
check. -/
theorem epoch_events_counts (env : FitEnv) (n : Nat) :
    reviewsRun (epoch_events env n) = env.numBatches ∧
    epochsRun (epoch_events env n) = 1 := by
  obtain ⟨h1, h2⟩ := batch_phase_counts n env.numBatches
  obtain ⟨h3, h4⟩ := runs_append
    (batch_phase n env.numBatches ++ [LoopEvent.convergeCheck n])
    (if env.hasValidation then [LoopEvent.validate n] else [])
  obtain ⟨h5, h6⟩ := runs_append (batch_phase n env.numBatches)
    [LoopEvent.convergeCheck n]
  unfold epoch_events
  cases env.hasValidation <;>
    simp_all [reviewsRun, epochsRun, List.countP_cons, List.countP_nil]

/-- Helper: in every trace the training loop produces, the number of
`review_models` executions is the number of executed epoch bodies times the
number of batches. -/
theorem fit_loop_reviews (env : FitEnv) (fuel : Nat) :
    ∀ n conv,
      reviewsRun (fit_loop env fuel n conv).trace =
        env.numBatches * epochsRun (fit_loop env fuel n conv).trace := by
  induction fuel with
  | zero => intro n conv; simp [fit_loop, reviewsRun, epochsRun]
  | succ fuel ih =>
      intro n conv
      obtain ⟨hb1, hb2⟩ := epoch_events_counts env n
      simp only [fit_loop]
      split
      · simp [hb1, hb2]
      · split
        · simp [hb1, hb2]
        · obtain ⟨ha1, ha2⟩ := runs_append (epoch_events env n)
            (fit_loop env fuel (n + 1) (env.convergedAt n)).trace
          simp only [ha1, ha2, hb1, hb2, ih]
          ring

/-- C3 counterexample.  The claim says `review_models` runs exactly once
per epoch, at the epoch boundary after all batches.  With 2 batches and one
epoch, the trace contains TWO review events, and the first one occurs
before the second batch is even predicted: review runs inside the batch
loop, once per batch. -/
theorem C3_counterexample :
    (fit_binary_loop ⟨2, fun _ => false, fun _ => false, false⟩ 1).trace =
      [LoopEvent.predict 0 0, LoopEvent.gradient 0 0, LoopEvent.review 0 0,
       LoopEvent.predict 0 1, LoopEvent.gradient 0 1, LoopEvent.review 0 1,
       LoopEvent.convergeCheck 0] ∧
    reviewsRun (fit_binary_loop ⟨2, fun _ => false, fun _ => false, false⟩ 1).trace = 2 ∧
    epochsRun (fit_binary_loop ⟨2, fun _ => false, fun _ => false, false⟩ 1).trace = 1 := by
  decide

/-- C3 (amended): during the training loop of `fit_binary`,
`review_models` is executed once per BATCH, inside the batch loop right
after the gradient step — so each executed epoch body performs
`numBatches` review executions, which collapses to once per epoch exactly
when there is a single batch. -/
theorem C3_amended (env : FitEnv) (maxIter : Nat) :
    reviewsRun (fit_binary_loop env maxIter).trace =
      env.numBatches * epochsRun (fit_binary_loop env maxIter).trace := by
  unfold fit_binary_loop
  exact fit_loop_reviews env maxIter 0 false

/-! ## Claim C4: the argument order of the compute_gradient call sites -/

/-- C4 counterexample.  The claim says both branches pass
(own share, counterpart share) to the `(wa, wb)` parameters.  At the
concrete first-batch GUEST input (own share named `wb_-1`, counterpart
share named `wa_-1`) the GUEST branch passes the COUNTERPART share as `wa`
and its own share as `wb` — the opposite of the claimed fixed order, and
different from the HOST branch, which passes (own, counterpart). -/
theorem C4_counterexample :
    compute_gradient_args Role.guest
        (from_source "wb_-1" (ShareSource.localWeights [1]))
        (from_source "wa_-1" ShareSource.peerParty) =
      (from_source "wa_-1" ShareSource.peerParty,
       from_source "wb_-1" (ShareSource.localWeights [1])) ∧
    ¬(compute_gradient_args Role.guest
        (from_source "wb_-1" (ShareSource.localWeights [1]))
        (from_source "wa_-1" ShareSource.peerParty) =
      (from_source "wb_-1" (ShareSource.localWeights [1]),
       from_source "wa_-1" ShareSource.peerParty)) ∧
    compute_gradient_args Role.host
        (from_source "wa_-1" (ShareSource.localWeights [1]))
        (from_source "wb_-1" ShareSource.peerParty) =
      (from_source "wa_-1" (ShareSource.localWeights [1]),
       from_source "wb_-1" ShareSource.peerParty) := by
  decide

/-- C4 (amended): the `compute_gradient` argument order is variable-fixed,
not role-relative: GUEST passes (counterpart share, own share) and HOST
passes (own share, counterpart share) to `(wa, wb)`, so in both roles the
`wa` parameter receives the a-side (HOST-model) share and `wb` the b-side
(GUEST-model) share — on the initial shares of `share_init_model`, the
tensor passed as `wa` is always the one named `wa_<n>` and the one passed
as `wb` is always named `wb_<n>`. -/
theorem C4_amended (role : Role) (w : List Int) (n_iter : Int)
    (w_self w_remote : FPTensor) :
    compute_gradient_args Role.guest w_self w_remote = (w_remote, w_self) ∧
    compute_gradient_args Role.host w_self w_remote = (w_self, w_remote) ∧
    (compute_gradient_args role (share_init_model role w n_iter).1
        (share_init_model role w n_iter).2).1.name = "wa_" ++ toString n_iter ∧
    (compute_gradient_args role (share_init_model role w n_iter).1
        (share_init_model role w n_iter).2).2.name = "wb_" ++ toString n_iter := by
  refine ⟨rfl, rfl, ?_, ?_⟩ <;>
    cases role <;> simp [share_init_model, compute_gradient_args, from_source]

/-! ## Claim C6: termination and terminal conditions of the training loop -/

/-- Helper: invariants of the training loop, for every entry point
`(fuel, n, conv)`: at most `fuel` further epoch bodies run; the final epoch
counter is at most `n + fuel`; a `converged` exit happens only with the
convergence flag true; a guard-failure exit happens exactly at
`n_iter = n + fuel`; and if the convergence oracle and the early-stop
oracle never fire and the incoming flag is false, the loop runs to the
guard failure with the flag still false. -/
theorem fit_loop_spec (env : FitEnv) (fuel : Nat) :
    ∀ n conv,
      epochsRun (fit_loop env fuel n conv).trace ≤ fuel ∧
      (fit_loop env fuel n conv).n_iter ≤ n + fuel ∧
      ((fit_loop env fuel n conv).exit = ExitReason.converged →
        (fit_loop env fuel n conv).is_converged = true) ∧
      ((fit_loop env fuel n conv).exit = ExitReason.maxIterReached →
        (fit_loop env fuel n conv).n_iter = n + fuel) ∧
      ((∀ i, env.convergedAt i = false) → (∀ i, env.needStopAt i = false) →
        conv = false →
        (fit_loop env fuel n conv).is_converged = false ∧
        (fit_loop env fuel n conv).exit = ExitReason.maxIterReached) := by
  induction fuel with
  | zero =>
      intro n conv
      refine ⟨by simp [fit_loop, epochsRun], by simp [fit_loop], ?_, ?_, ?_⟩
      · intro h; simp [fit_loop] at h
      · intro h; simp [fit_loop]
      · intro hc hs hconv; simp [fit_loop, hconv]
  | succ fuel ih =>
      intro n conv
      obtain ⟨hb1, hb2⟩ := epoch_events_counts env n
      simp only [fit_loop]
      split
      · next hguard =>
          refine ⟨?_, ?_, ?_, ?_, ?_⟩
          · simp [hb2]
          · show n ≤ n + (fuel + 1); omega
          · intro h; simp at h
          · intro h; simp at h
          · intro hc hs hconv
            exfalso
            rw [hs n, Bool.and_false] at hguard
            exact Bool.false_ne_true hguard
      · split
        · next hconv2 =>
            refine ⟨?_, ?_, ?_, ?_, ?_⟩
            · simp [hb2]
            · show n ≤ n + (fuel + 1); omega
            · intro h; exact hconv2
            · intro h; simp at h
            · intro hc hs hconv
              rw [hc n] at hconv2
              exact absurd hconv2 (by simp)
        · obtain ⟨ih1, ih2, ih3, ih4, ih5⟩ := ih (n + 1) (env.convergedAt n)
          obtain ⟨ha1, ha2⟩ := runs_append (epoch_events env n)
            (fit_loop env fuel (n + 1) (env.convergedAt n)).trace
          refine ⟨?_, ?_, ih3, ?_, ?_⟩
          · show epochsRun (epoch_events env n ++
              (fit_loop env fuel (n + 1) (env.convergedAt n)).trace) ≤ fuel + 1
            rw [ha2, hb2]
            omega
          · show (fit_loop env fuel (n + 1) (env.convergedAt n)).n_iter ≤
              n + (fuel + 1)
            omega
          · intro h
            show (fit_loop env fuel (n + 1) (env.convergedAt n)).n_iter =
              n + (fuel + 1)
            rw [ih4 h]
            omega
          · intro hc hs hconv
            exact ih5 hc hs (hc n)

/-- C6: the training loop of `fit_binary` terminates and only via the three
terminal conditions (convergence, epoch counter reaching `max_iter`, early
stop); at most `max_iter` epoch bodies are executed, the final epoch
counter never exceeds `max_iter`, a `converged` exit carries
`is_converged = true`, a guard-failure exit happens exactly at
`n_iter_ = max_iter`, and if the tolerance is never met and no early stop
occurs, training halts at `max_iter` with `is_converged = false`. -/
theorem C6_training_loop_terminal_conditions (env : FitEnv) (maxIter : Nat) :
    epochsRun (fit_binary_loop env maxIter).trace ≤ maxIter ∧
    (fit_binary_loop env maxIter).n_iter ≤ maxIter ∧
    ((fit_binary_loop env maxIter).exit = ExitReason.converged →
      (fit_binary_loop env maxIter).is_converged = true) ∧
    ((fit_binary_loop env maxIter).exit = ExitReason.maxIterReached →
      (fit_binary_loop env maxIter).n_iter = maxIter) ∧
    ((∀ i, env.convergedAt i = false) → (∀ i, env.needStopAt i = false) →
      (fit_binary_loop env maxIter).is_converged = false ∧
      (fit_binary_loop env maxIter).exit = ExitReason.maxIterReached ∧
      (fit_binary_loop env maxIter).n_iter = maxIter) := by
  obtain ⟨h1, h2, h3, h4, h5⟩ := fit_loop_spec env maxIter 0 false
  refine ⟨by simpa [fit_binary_loop] using h1, by simpa [fit_binary_loop] using h2,
    h3, by simpa [fit_binary_loop] using h4, ?_⟩
  intro hc hs
  obtain ⟨hcv, hex⟩ := h5 hc hs rfl
  exact ⟨hcv, hex, by simpa [fit_binary_loop] using h4 hex⟩

/-- Witness for `C6_training_loop_terminal_conditions`: a 3-epoch run whose
oracles never fire halts at `n_iter_ = 3` unconverged via the loop guard. -/
theorem C6_witness :
    (fit_binary_loop ⟨1, fun _ => false, fun _ => false, false⟩ 3).is_converged = false ∧
    (fit_binary_loop ⟨1, fun _ => false, fun _ => false, false⟩ 3).exit =
      ExitReason.maxIterReached ∧
    (fit_binary_loop ⟨1, fun _ => false, fun _ => false, false⟩ 3).n_iter = 3 :=
  (C6_training_loop_terminal_conditions ⟨1, fun _ => false, fun _ => false, false⟩ 3).2.2.2.2
    (fun _ => rfl) (fun _ => rfl)

/-! ## Claim C5: the authorization gate on all_review_in_guest -/

/-- If the guard chain reports no error, every single guard passed. -/
theorem firstErr_ok_all (l : List (Except String Unit))
    (h : firstErr l = Except.ok ()) :
    ∀ x ∈ l, x = Except.ok () := by
  induction l with
  | nil => intro x hx; simp at hx
  | cons a rest ih =>
      intro x hx
      cases a with
      | ok u =>
          cases u
          rcases List.mem_cons.mp hx with rfl | hmem
          · rfl
          · exact ih (by simpa [firstErr] using h) x hmem
      | error e => simp [firstErr] at h

/-- The review-strategy guard fails under an unset authorization flag
whenever the lower-cased strategy is `all_review_in_guest`. -/
theorem review_strategy_check_unauthorized (s : String)
    (h : pyLower s = "all_review_in_guest") :
    review_strategy_check s false =
      Except.error "PermissionError: review strategy all_review_in_guest has not been authorized." := by
  unfold review_strategy_check
  rw [h]
  simp

/-- C5: `LogisticRegressionParam.check` refuses every configuration whose
lower-cased `review_strategy` is `all_review_in_guest` while the
process-wide flag `ALLOW_REVIEW_GUEST_ONLY` is unset — `check` is pure
parameter validation, so the refusal precedes any cross-party
communication — and with the flag set, the (otherwise default)
`all_review_in_guest` configuration passes `check`. -/
theorem C5_guest_review_authorization_gate (p : LogisticRegressionParam)
    (h : pyLower p.review_strategy = "all_review_in_guest") :
    (∃ e, LogisticRegressionParam.check p false = Except.error e) ∧
    LogisticRegressionParam.check allReviewGuestParam true = Except.ok true := by
  refine ⟨?_, by rfl⟩
  unfold LogisticRegressionParam.check
  cases hfe : firstErr
      [penalty_check p.penalty,
       optimizer_check p.optimizer,
       batch_size_check p.batch_size,
       max_iter_check p.max_iter,
       early_stop_check p.early_stop,
       encrypt_method_check p.encrypt_method,
       validation_freqs_check p.validation_freqs,
       early_stopping_rounds_check p.validation_freqs p.early_stopping_rounds,
       floating_point_precision_check p.floating_point_precision,
       review_strategy_check p.review_strategy false] with
  | ok u =>
      exfalso
      cases u
      have hall := firstErr_ok_all _ hfe
        (review_strategy_check p.review_strategy false) (by simp)
      rw [review_strategy_check_unauthorized p.review_strategy h] at hall
      exact Except.noConfusion hall
  | error e => exact ⟨e, rfl⟩

/-- Witness for `C5_guest_review_authorization_gate` at the concrete
configuration requesting `all_review_in_guest` (in mixed case, exercising
the lower-casing). -/
theorem C5_witness :
    (∃ e, LogisticRegressionParam.check
        { defaultLRParam with review_strategy := "All_Review_In_Guest" } false =
      Except.error e) ∧
    LogisticRegressionParam.check allReviewGuestParam true = Except.ok true :=
  C5_guest_review_authorization_gate
    { defaultLRParam with review_strategy := "All_Review_In_Guest" } (by decide)

/-! ## Claim C7: the batch_size guard -/

/-- `check` on the default configuration with `batch_size := b` reduces to
the batch-size guard: every other guard passes on the defaults. -/
theorem check_cfg_batch (b : Int) (allow : Bool) :
    LogisticRegressionParam.check (cfg_batch b) allow =
      match batch_size_check b with
      | Except.ok _ => Except.ok true
      | Except.error e => Except.error e := by
  cases hb : batch_size_check b with
  | ok u =>
      cases u
      simp only [LogisticRegressionParam.check, cfg_batch, defaultLRParam]
      rw [hb]
      cases allow <;> rfl
  | error e =>
      simp only [LogisticRegressionParam.check, cfg_batch, defaultLRParam]
      rw [hb]
      cases allow <;> rfl

/-- C7: on the default configuration, `check` accepts `batch_size` exactly
when it is `-1` or at least `MIN_BATCH_SIZE`, and reports a configuration
error otherwise (in particular for `batch_size = 0`); `check` is pure
parameter validation, before any cross-party communication. -/
theorem C7_batch_size_guard (b : Int) (allow : Bool) :
    (LogisticRegressionParam.check (cfg_batch b) allow = Except.ok true ↔
      (b = -1 ∨ MIN_BATCH_SIZE ≤ b)) ∧
    LogisticRegressionParam.check (cfg_batch 0) allow =
      Except.error "logistic_param batch_size not supported" := by
  constructor
  · rw [check_cfg_batch]
    unfold batch_size_check MIN_BATCH_SIZE
    split_ifs with h1 h2
    · simp only [reduceCtorEq, false_iff]
      omega
    · simp only [true_iff]
      omega
    · simp only [true_iff]
      omega
  · rw [check_cfg_batch]
    rfl

/-! ## Claim C8: the abstract secure operations fail fast -/

/-- C8: on the base class, every call of `cal_prediction`,
`compute_gradient` or `transfer_pubkey` — for all argument values — raises
`NotImplementedError("Should not call here")`; none returns a value or
silently proceeds. -/
theorem C8_abstract_ops_fail_fast (w_self w_remote wa wb : FPTensor)
    (features err : List Int) (spdz : Unit) (suffix : Nat × Nat) :
    HeteroLRBase.cal_prediction w_self w_remote features spdz suffix =
      Except.error (RErr.notImplementedError "Should not call here") ∧
    HeteroLRBase.compute_gradient wa wb err features suffix =
      Except.error (RErr.notImplementedError "Should not call here") ∧
    HeteroLRBase.transfer_pubkey =
      Except.error (RErr.notImplementedError "Should not call here") :=
  ⟨rfl, rfl, rfl⟩

/-! ## Claim C9: the encrypted-intermediate exchange share_z -/

/-- C9: `share_z` is role-asymmetric.  HOST encrypts the single
intermediate `z` under the local cipher, sends the ciphertext to GUEST
tagged with the variable name "z" prepended to the suffix, and returns
nothing.  GUEST performs no send, receives one ciphertext from HOST, wraps
it unchanged (no decryption: the wrapped `value` is exactly the received
ciphertext), and returns a 3-tuple whose three components are all this
same single received tensor. -/
theorem C9_share_z_role_asymmetry (cipherKey : Nat) (enc : FixPointEncoder)
    (suffix : List String) (kwargs : String → FPNVal)
    (recv : Role → List String → Ciphertext) :
    share_z Role.host cipherKey enc suffix kwargs recv =
      (none,
       [ZEvent.remoteSend Role.guest ("z" :: suffix)
          (distribute_encrypt cipherKey (kwargs "z").value)]) ∧
    share_z Role.guest cipherKey enc suffix kwargs recv =
      (some (⟨recv Role.host ("z" :: suffix), enc.n, enc⟩,
             ⟨recv Role.host ("z" :: suffix), enc.n, enc⟩,
             ⟨recv Role.host ("z" :: suffix), enc.n, enc⟩), []) :=
  ⟨rfl, rfl⟩

/-! ## Claim C10: the model-parameter persistence round trip -/

/-- When the header and the coefficient vector have matching lengths, the
weight dict built by `get_single_model_param` is their zip, in insertion
order. -/
theorem build_weight_dict_eq_zip (header : List String) (coefs : List Int)
    (hlen : header.length = coefs.length) :
    build_weight_dict header coefs = Except.ok (header.zip coefs) := by
  induction header generalizing coefs with
  | nil =>
      cases coefs with
      | nil => rfl
      | cons c cs => simp at hlen
  | cons name names ih =>
      cases coefs with
      | nil => simp at hlen
      | cons c cs =>
          simp only [List.length_cons, Nat.add_right_cancel_iff] at hlen
          simp only [build_weight_dict, ih cs hlen, List.zip_cons_cons]

/-- A dict lookup misses exactly the keys that were never inserted. -/
theorem dget_none_iff (d : List (String × Int)) (key : String) :
    dget d key = none ↔ key ∉ d.map Prod.fst := by
  induction d with
  | nil => simp [dget]
  | cons p rest ih =>
      obtain ⟨k, v⟩ := p
      simp only [dget, List.map_cons, List.mem_cons]
      cases hrest : dget rest key with
      | some w =>
          have : key ∈ rest.map Prod.fst := by
            by_contra hmem
            rw [(ih.mpr hmem : dget rest key = none)] at hrest
            exact Option.noConfusion hrest
          simp [this]
      | none =>
          have hmem : key ∉ rest.map Prod.fst := ih.mp hrest
          by_cases hk : key = k <;> simp [hk, hmem]

/-- Prepending an entry does not change the lookup of a key that occurs
among the remaining entries (Python dict semantics: the LAST insertion
wins, and the key is present further in). -/
theorem dget_cons_of_mem (k : String) (v : Int) (rest : List (String × Int))
    (key : String) (h : key ∈ rest.map Prod.fst) :
    dget ((k, v) :: rest) key = dget rest key := by
  cases hrest : dget rest key with
  | some w => simp [dget, hrest]
  | none => exact absurd ((dget_none_iff rest key).mp hrest) (fun hn => hn h)

/-- Lookups along a name list only depend on the lookups of those names. -/
theorem lookup_all_congr (d₁ d₂ : List (String × Int)) (names : List String)
    (h : ∀ name ∈ names, dget d₁ name = dget d₂ name) :
    lookup_all d₁ names = lookup_all d₂ names := by
  induction names with
  | nil => rfl
  | cons name rest ih =>
      simp only [lookup_all, h name (List.mem_cons_self name rest),
        ih (fun x hx => h x (List.mem_cons_of_mem name hx))]

/-- Looking every header name up in the freshly zipped weight dict returns
exactly the coefficient vector, provided the header names are distinct. -/
theorem lookup_all_zip (header : List String) (coefs : List Int)
    (hnd : header.Nodup) (hlen : header.length = coefs.length) :
    lookup_all (header.zip coefs) header = Except.ok coefs := by
  induction header generalizing coefs with
  | nil =>
      cases coefs with
      | nil => rfl
      | cons c cs => simp at hlen
  | cons h hs ih =>
      cases coefs with
      | nil => simp at hlen
      | cons c cs =>
          simp only [List.length_cons, Nat.add_right_cancel_iff] at hlen
          obtain ⟨hh, hnd2⟩ := List.nodup_cons.mp hnd
          have hkeys : (hs.zip cs).map Prod.fst = hs :=
            List.map_fst_zip hs cs (le_of_eq hlen)
          have hmiss : dget (hs.zip cs) h = none := by
            rw [dget_none_iff, hkeys]
            exact hh
          have hfirst : dget ((h, c) :: hs.zip cs) h = some c := by
            simp [dget, hmiss]
          have hcongr : lookup_all ((h, c) :: hs.zip cs) hs =
              lookup_all (hs.zip cs) hs := by
            refine lookup_all_congr _ _ hs (fun name hmem => ?_)
            refine dget_cons_of_mem h c (hs.zip cs) name ?_
            rw [hkeys]
            exact hmem
          simp only [List.zip_cons_cons, lookup_all, hfirst, hcongr,
            ih cs hnd2 hlen]

/-- C10 counterexample.  The claim quantifies over every header list; with
the duplicate header `["a", "a"]` and coefficients `[1, 2]`, the persisted
weight dict collapses to the last insertion, and reloading yields `[2, 2]`
instead of the original `[1, 2]`: the round trip fails. -/
theorem C10_counterexample :
    get_single_model_param ⟨3, [], false, ⟨[1, 2], false⟩, ["a", "a"]⟩ =
      Except.ok ⟨3, [], false, [("a", 1), ("a", 2)], 0, ["a", "a"]⟩ ∧
    load_single_model ["a", "a"] false
        ⟨3, [], false, [("a", 1), ("a", 2)], 0, ["a", "a"]⟩ =
      Except.ok (⟨[2, 2], false⟩, 3) ∧
    ([2, 2] : List Int) ≠ [1, 2] := by
  refine ⟨by rfl, by rfl, by decide⟩

/-- C10 (amended): for every DUPLICATE-FREE header list and coefficient
vector of matching length, feeding the record produced by
`get_single_model_param` into `load_single_model` (same header, same
`fit_intercept`) restores exactly the same stored vector — the coefficients
with the intercept appended as the last entry exactly when `fit_intercept`
is set — and the same iteration counter `n_iter_`. -/
theorem C10_roundtrip (header : List String) (coefs : List Int) (b : Int)
    (fi : Bool) (n_iter : Nat) (lh : List Rat) (isc : Bool)
    (hnd : header.Nodup) (hlen : header.length = coefs.length) :
    ∃ rec,
      get_single_model_param
        ⟨n_iter, lh, isc, ⟨if fi then coefs ++ [b] else coefs, fi⟩, header⟩ =
        Except.ok rec ∧
      load_single_model header fi rec =
        Except.ok (⟨if fi then coefs ++ [b] else coefs, fi⟩, n_iter) := by
  have hcoef :
      (LinearModelWeights.mk (if fi then coefs ++ [b] else coefs) fi).coef_ =
        coefs := by
    cases fi <;> simp [LinearModelWeights.coef_]
  have hint :
      (LinearModelWeights.mk (if fi then coefs ++ [b] else coefs) fi).intercept_ =
        if fi then b else 0 := by
    cases fi <;> simp [LinearModelWeights.intercept_]
  refine ⟨⟨n_iter, lh, isc, header.zip coefs, if fi then b else 0, header⟩,
    ?_, ?_⟩
  · simp only [get_single_model_param, hcoef, hint,
      build_weight_dict_eq_zip header coefs hlen]
  · simp only [load_single_model, lookup_all_zip header coefs hnd hlen]
    cases fi <;> simp

/-- Witness for `C10_roundtrip` on a concrete two-feature model with
intercept. -/
theorem C10_roundtrip_witness :
    ∃ rec,
      get_single_model_param
        ⟨2, [], true, ⟨if true then [4, 7] ++ [9] else [4, 7], true⟩, ["x", "y"]⟩ =
        Except.ok rec ∧
      load_single_model ["x", "y"] true rec =
        Except.ok (⟨if true then [4, 7] ++ [9] else [4, 7], true⟩, 2) :=
  C10_roundtrip ["x", "y"] [4, 7] 9 true 2 [] true (by decide) (by decide)
